import Mathlib

/-!
Verification of the syncflux collection-and-dispatch pipeline
(src/syncflux.py) against its specification.

The embedding models Python dictionaries as association lists with
insertion-order semantics (`Dict`), the three remote queries of one
syncthing source as an environment record of `Except` values
(`SourceEnv`), and the body of `main()` as the pure functions
`collectSource` (lines 106-171), `collectAll` (the loop over sources),
and `sendPoints` (lines 173-186).  Wall-clock readings (`now`,
`q_elapsed`) are inputs of the environment.  The scheduler tail
(lines 246-256) is `passSleep`, and the argument validation
(lines 211-214) is `configModeRejected`.
-/

namespace Syncflux

/-- Python dict with string keys, modelled as an association list in
insertion order.  Keys are unique in every dict the program builds. -/
abbrev Dict (α : Type) : Type := List (String × α)

/-- `d[k] = v` of Python: replace the value of an existing key in place,
otherwise append the new entry at the end. -/
def dictSet {α : Type} : Dict α → String → α → Dict α
  | [], k, v => [(k, v)]
  | (k₀, v₀) :: rest, k, v =>
      if k₀ = k then (k, v) :: rest else (k₀, v₀) :: dictSet rest k v

/-- `d.update(e)` of Python: set every entry of `e` into `d`, in order. -/
def dictUpdate {α : Type} (d e : Dict α) : Dict α :=
  e.foldl (fun acc kv => dictSet acc kv.1 kv.2) d

/-- `d.get(k)` of Python (first matching entry). -/
def dictGet {α : Type} (d : Dict α) (k : String) : Option α :=
  (d.find? (fun kv => kv.1 == k)).map (fun kv => kv.2)

theorem dictGet_cons {α : Type} (k₀ : String) (v₀ : α) (rest : Dict α) (k : String) :
    dictGet ((k₀, v₀) :: rest) k = if k₀ = k then some v₀ else dictGet rest k := by
  by_cases h : k₀ = k
  · subst h
    simp [dictGet, List.find?_cons]
  · have hb : (k₀ == k) = false := by simp [h]
    simp [dictGet, List.find?_cons, hb, h]

theorem dictGet_dictSet {α : Type} (d : Dict α) (k k' : String) (v : α) :
    dictGet (dictSet d k v) k' = if k' = k then some v else dictGet d k' := by
  induction d with
  | nil =>
      by_cases h : k' = k
      · rw [show dictSet ([] : Dict α) k v = [(k, v)] from rfl, dictGet_cons,
          if_pos h.symm, if_pos h]
      · have h' : ¬ (k = k') := fun hh => h hh.symm
        rw [show dictSet ([] : Dict α) k v = [(k, v)] from rfl, dictGet_cons,
          if_neg h', if_neg h]
  | cons kv rest ih =>
      obtain ⟨k₀, v₀⟩ := kv
      by_cases h0 : k₀ = k
      · rw [show dictSet ((k₀, v₀) :: rest) k v = (k, v) :: rest by
          simp [dictSet, h0]]
        by_cases h : k' = k
        · rw [dictGet_cons, if_pos h.symm, if_pos h]
        · have h' : ¬ (k = k') := fun hh => h hh.symm
          have h0' : ¬ (k₀ = k') := fun hh => h' (h0 ▸ hh)
          rw [dictGet_cons, if_neg h', if_neg h, dictGet_cons, if_neg h0']
      · rw [show dictSet ((k₀, v₀) :: rest) k v = (k₀, v₀) :: dictSet rest k v by
          simp [dictSet, h0]]
        by_cases h1 : k₀ = k'
        · have hk : ¬ (k' = k) := fun hh => h0 (h1.trans hh)
          rw [dictGet_cons, if_pos h1, if_neg hk, dictGet_cons, if_pos h1]
        · rw [dictGet_cons, if_neg h1, ih, dictGet_cons, if_neg h1]

theorem dictGet_dictUpdate_not_mem {α : Type} (d e : Dict α) (k : String)
    (h : ∀ kv ∈ e, kv.1 ≠ k) :
    dictGet (dictUpdate d e) k = dictGet d k := by
  induction e generalizing d with
  | nil => rfl
  | cons kv rest ih =>
      have hkv : kv.1 ≠ k := h kv (List.mem_cons_self kv rest)
      have hrest : ∀ kv' ∈ rest, kv'.1 ≠ k :=
        fun kv' hm => h kv' (List.mem_cons_of_mem kv hm)
      have step : dictUpdate d (kv :: rest) = dictUpdate (dictSet d kv.1 kv.2) rest := rfl
      rw [step, ih _ hrest, dictGet_dictSet, if_neg (fun hh => hkv hh.symm)]

theorem dictGet_eq_none_iff {α : Type} (d : Dict α) (k : String) :
    dictGet d k = none ↔ ∀ kv ∈ d, kv.1 ≠ k := by
  constructor
  · intro h kv hm
    intro hk
    have : d.find? (fun kv => kv.1 == k) = none := by
      cases hfind : d.find? (fun kv => kv.1 == k) with
      | none => rfl
      | some p => simp [dictGet, hfind] at h
    have := List.find?_eq_none.mp this kv hm
    simp [hk] at this
  · intro h
    have : d.find? (fun kv => kv.1 == k) = none := by
      apply List.find?_eq_none.mpr
      intro kv hm
      simp [h kv hm]
    simp [dictGet, this]

/-- One entry of `config.syncthings` (dataclass `SyncthingConfiguration`,
lines 19-36).  Only `name` and `tags` take part in point construction; the
connection parameters are consumed opaquely by the client constructor.
The source annotates `tags` as `Optional[List[str]]` but line 110 feeds it
to `dict.update`, i.e. it is used as a key-value mapping; the embedding
models it as such.  `if sync.tags:` (line 109) is false exactly for an
empty or absent mapping. -/
structure SyncthingConfiguration where
  name : String
  tags : Dict String

/-- Dataclass `MeasurementConfiguration` (lines 56-59). -/
structure MeasurementConfiguration where
  devices : String
  folders : String

/-- Exceptions raised inside a syncthing client call (network or
protocol failure of `conn.system.config`, `conn.stats.device` or
`conn.database.completion`). -/
inductive ConnErr : Type
  | connection
  | protocol
deriving DecidableEq

/-- Exceptions that can escape the collection loop of `main()`:
a client exception, the `IndexError` of line 119
(`sync_cfg["defaults"]["folder"]["devices"][0]` on an empty list), and
the `KeyError` of line 131 (`device_stats[device_id]`).  None of them is
caught anywhere in `main()` or in the scheduler loop. -/
inductive CollectErr : Type
  | conn (e : ConnErr)
  | indexError
  | keyError (deviceId : String)
deriving DecidableEq

/-- One element of `sync_cfg["devices"]` (or of
`sync_cfg["defaults"]["folder"]["devices"]`). -/
structure DeviceEntry where
  deviceID : String
  name : String
deriving DecidableEq

/-- One element of `sync_cfg["folders"]`. -/
structure FolderEntry where
  id : String
  label : String
  path : String
deriving DecidableEq

/-- The parts of the `conn.system.config()` response read by `main()`. -/
structure SyncCfg where
  defaultFolderDevices : List DeviceEntry
  devices : List DeviceEntry
  folders : List FolderEntry
deriving DecidableEq

/-- The environment of one source's collection: the outcomes of the three
remote queries, plus the wall-clock readings (`now` of line 116 as a UTC
timestamp in seconds, and the elapsed query time `q_elapsed` of
line 152).  `deviceStats` maps device ids to `lastSeen` timestamps. -/
structure SourceEnv where
  systemConfig : Except ConnErr SyncCfg
  deviceStats : Except ConnErr (Dict Int)
  completion : String → String → Except ConnErr Int
  now : Int
  qElapsed : Int

/-- The per-entity tag/field pairs accumulated in `remote_devices` and
`folders` (lines 134-142 and 148-151). -/
structure Entity where
  tags : Dict String
  fields : Dict Int
deriving DecidableEq

/-- An InfluxDB point as built on lines 161 and 170. -/
structure Point where
  measurement : String
  tags : Dict String
  fields : Dict Int
deriving DecidableEq

/-- The device loop of lines 126-142: the own device records its name
into the proto tags, every other device is looked up in `device_stats`
(`KeyError` aborts the whole collection) and appended to
`remote_devices` with its `last_seen_since_sec` field. -/
def deviceLoop (myId : String) (stats : Dict Int) (now : Int) :
    List DeviceEntry → Dict String → List Entity →
    Except CollectErr (Dict String × List Entity)
  | [], proto, acc => .ok (proto, acc)
  | d :: rest, proto, acc =>
      if d.deviceID = myId then
        deviceLoop myId stats now rest (dictSet proto "my_name" d.name) acc
      else
        match dictGet stats d.deviceID with
        | none => .error (.keyError d.deviceID)
        | some lastSeen =>
            deviceLoop myId stats now rest proto
              (acc ++ [⟨[("id", d.deviceID), ("name", d.name)],
                       [("last_seen_since_sec", now - lastSeen)]⟩])

/-- The folder loop of lines 144-151: each folder's completion for the
own device is queried; an exception aborts the whole collection. -/
def folderLoop (myId : String) (completion : String → String → Except ConnErr Int) :
    List FolderEntry → List Entity → Except CollectErr (List Entity)
  | [], acc => .ok acc
  | f :: rest, acc =>
      match completion myId f.id with
      | .error e => .error (.conn e)
      | .ok c =>
          folderLoop myId completion rest
            (acc ++ [⟨[("id", f.id), ("label", f.label), ("path", f.path)],
                     [("completion", c)]⟩])

/-- The point-emission loops of lines 156-171: each entity's point gets a
fresh copy (`copy.copy`) of the proto tags and proto fields, overlaid
with the entity's own entries, and is appended to `points`. -/
def emitPoints (measurement : String) (protoTags : Dict String)
    (protoFields : Dict Int) (entities : List Entity) (acc : List Point) :
    List Point :=
  entities.foldl
    (fun pts e =>
      pts ++ [⟨measurement, dictUpdate protoTags e.tags, dictUpdate protoFields e.fields⟩])
    acc

/-- Lines 108-110: `proto_tags = {"cfg_name": sync.name}` followed by
`proto_tags.update(sync.tags)` when the static tag mapping is non-empty
(`if sync.tags:`). -/
def protoTagsOf (cfg : SyncthingConfiguration) : Dict String :=
  if cfg.tags.isEmpty then [("cfg_name", cfg.name)]
  else dictUpdate [("cfg_name", cfg.name)] cfg.tags

/-- Collection of one source: the body of the `for sync in
config.syncthings.values()` loop (lines 106-171), from the construction
of `proto_tags` to the emission of this source's points.  Any exception
escapes; there is no `try` in `main()`.  `proto_tags["my_id"] = my_id`
is line 121, and the proto fields `{"q_elapsed": q_elapsed}` are
line 153. -/
def collectSource (cfg : SyncthingConfiguration) (meas : MeasurementConfiguration)
    (env : SourceEnv) : Except CollectErr (List Point) :=
  match env.systemConfig with
  | .error e => .error (.conn e)
  | .ok scfg =>
      match scfg.defaultFolderDevices with
      | [] => .error .indexError
      | myDevice :: _ =>
          match env.deviceStats with
          | .error e => .error (.conn e)
          | .ok stats =>
              match deviceLoop myDevice.deviceID stats env.now scfg.devices
                  (dictSet (protoTagsOf cfg) "my_id" myDevice.deviceID) [] with
              | .error e => .error e
              | .ok (protoTags, remoteDevices) =>
                  match folderLoop myDevice.deviceID env.completion scfg.folders [] with
                  | .error e => .error e
                  | .ok folderEntities =>
                      .ok (emitPoints meas.folders protoTags [("q_elapsed", env.qElapsed)]
                            folderEntities
                            (emitPoints meas.devices protoTags [("q_elapsed", env.qElapsed)]
                              remoteDevices []))

/-- The whole collection phase of `main()` (lines 105-171): sources are
visited in order, each appends its points to the shared `points` list,
and an exception from any source propagates immediately — `main()` has
no handler around the loop body. -/
def collectAll (meas : MeasurementConfiguration) :
    List (SyncthingConfiguration × SourceEnv) → List Point →
    Except CollectErr (List Point)
  | [], pts => .ok pts
  | (cfg, env) :: rest, pts =>
      match collectSource cfg meas env with
      | .error e => .error e
      | .ok ps => collectAll meas rest (pts ++ ps)

/-- Observable outcome of one sink's attempt in the loop of
lines 176-186: the write succeeded, the failure was caught and the
traceback printed (`halt_on_send_error` unset), or the failure was
re-raised (`halt_on_send_error` set). -/
inductive SinkOutcome : Type
  | written
  | reported
  | raised
deriving DecidableEq

/-- The sink loop of lines 176-186, recording one outcome per attempted
sink.  Each sink's client construction and `write_points` call sit
inside one `try`; success or failure of the pair is one boolean input.
On failure with `halt_on_send_error` the exception is re-raised, so the
remaining sinks are never attempted. -/
def sinkLoop (halt : Bool) : List Bool → List SinkOutcome
  | [] => []
  | ok :: rest =>
      if ok then .written :: sinkLoop halt rest
      else if halt then [.raised]
      else .reported :: sinkLoop halt rest

/-- The dispatch phase of `main()` (lines 173-186): `if not points:
return` short-circuits before any sink client is constructed; otherwise
every configured sink is attempted in order with the whole batch. -/
def sendPoints (points : List Point) (sinks : List Bool) (halt : Bool) :
    List SinkOutcome :=
  if points.isEmpty then [] else sinkLoop halt sinks

/-- The inter-pass wait of the scheduler (lines 246-256), as the number
of seconds slept before the next pass.  `index` is the value after the
`index += 1` of line 246, `count` is `args.count`, `wait` is
`args.wait`, `elapsed` the duration of the pass just ended.  Note that
line 254 sleeps `args.wait`, not the `remaining` computed on line 250. -/
def passSleep (count index : Int) (wait elapsed : Rat) : Rat :=
  if 0 < count ∧ index = count then 0
  else if 0 < wait - elapsed then wait else 0

/-- Line 211-212: a missing `--config` argument is replaced by the
default `"syncflux.yml"` before the mutual-exclusion check runs. -/
def effectiveConfig : Option String → Option String
  | none => some "syncflux.yml"
  | some c => some c

/-- The mutual-exclusion check of lines 213-214, evaluated after the
defaulting of lines 211-212: `true` means `parser.error` is called and
the process exits before any configuration file is read. -/
def configModeRejected (config configDir : Option String) : Bool :=
  (effectiveConfig config).isSome && configDir.isSome

/-- Lowercased code point of a character, as `str.lower` computes it on
the ASCII range (code 46 is the dot, 65-90 the upper-case letters). -/
def charLowerCode (c : Char) : Nat :=
  if 65 ≤ c.toNat ∧ c.toNat ≤ 90 then c.toNat + 32 else c.toNat

/-- Lexicographic order on code points, the order `sorted()` uses for
strings. -/
def lexLe : List Char → List Char → Bool
  | [], _ => true
  | _ :: _, [] => false
  | a :: as, b :: bs =>
      if a.toNat < b.toNat then true
      else if b.toNat < a.toNat then false
      else lexLe as bs

/-- Stable insertion of a filename into a sorted list. -/
def insertSorted (x : String) : List String → List String
  | [] => [x]
  | y :: rest =>
      if lexLe x.toList y.toList then x :: y :: rest else y :: insertSorted x rest

/-- Python's `sorted()` on a list of filenames. -/
def sortStrings : List String → List String
  | [] => []
  | x :: rest => insertSorted x (sortStrings rest)

/-- Extension of a filename as computed by `os.path.splitext`: the
suffix from the last dot on, except that a basename consisting of
leading dots only has no extension. -/
def splitextExt (p : String) : List Char :=
  let rev := p.toList.reverse
  let after := rev.takeWhile (fun c => ¬ (c.toNat = 46))
  if after.length = rev.length then []
  else
    let beforeRev := rev.drop (after.length + 1)
    if beforeRev.all (fun c => c.toNat = 46) then []
    else '.' :: after.reverse

/-- The filter of lines 227-228: `ext.lower() == ".yml"`, compared on
code points (`[46, 121, 109, 108]` spells `.yml`). -/
def isYmlExt (f : String) : Bool :=
  (splitextExt f).map charLowerCode == [46, 121, 109, 108]

/-- The directory scan of lines 225-230: every file of the listing whose
`splitext` extension lowercases to `.yml`, in sorted filename order,
joined to the directory path. -/
def configFilesOfDir (configDir : String) (listing : List String) : List String :=
  ((sortStrings listing).filter isYmlExt).map (fun f => configDir ++ "/" ++ f)

/-- Tag/field keys of one `remote_devices` entry (lines 134-142). -/
def isDeviceEntity (e : Entity) : Prop :=
  (∀ kv ∈ e.tags, kv.1 = "id" ∨ kv.1 = "name") ∧
  (∀ kv ∈ e.fields, kv.1 = "last_seen_since_sec")

/-- Tag/field keys of one `folders` entry (lines 148-151). -/
def isFolderEntity (e : Entity) : Prop :=
  (∀ kv ∈ e.tags, kv.1 = "id" ∨ kv.1 = "label" ∨ kv.1 = "path") ∧
  (∀ kv ∈ e.fields, kv.1 = "completion")

theorem emitPoints_cons (m : String) (T : Dict String) (F : Dict Int)
    (e : Entity) (rest : List Entity) (acc : List Point) :
    emitPoints m T F (e :: rest) acc =
      emitPoints m T F rest
        (acc ++ [⟨m, dictUpdate T e.tags, dictUpdate F e.fields⟩]) := rfl

theorem emitPoints_eq_map (m : String) (T : Dict String) (F : Dict Int)
    (es : List Entity) (acc : List Point) :
    emitPoints m T F es acc =
      acc ++ es.map (fun e => ⟨m, dictUpdate T e.tags, dictUpdate F e.fields⟩) := by
  induction es generalizing acc with
  | nil => simp [emitPoints]
  | cons e rest ih =>
      rw [emitPoints_cons, ih]
      simp

theorem deviceLoop_ok_spec (myId : String) (stats : Dict Int) (now : Int) :
    ∀ (ds : List DeviceEntry) (proto : Dict String) (acc : List Entity)
      (proto' : Dict String) (acc' : List Entity),
      deviceLoop myId stats now ds proto acc = .ok (proto', acc') →
      (∀ k, k ≠ "my_name" → dictGet proto' k = dictGet proto k) ∧
      ((∀ e ∈ acc, isDeviceEntity e) → ∀ e ∈ acc', isDeviceEntity e) := by
  intro ds
  induction ds with
  | nil =>
      intro proto acc proto' acc' h
      cases h
      exact ⟨fun k _ => rfl, fun hacc => hacc⟩
  | cons d rest ih =>
      intro proto acc proto' acc' h
      by_cases hd : d.deviceID = myId
      · simp only [deviceLoop] at h
        rw [if_pos hd] at h
        obtain ⟨hp, he⟩ := ih _ _ _ _ h
        refine ⟨fun k hk => ?_, he⟩
        rw [hp k hk, dictGet_dictSet, if_neg hk]
      · simp only [deviceLoop] at h
        rw [if_neg hd] at h
        cases hst : dictGet stats d.deviceID with
        | none =>
            rw [hst] at h
            simp at h
        | some lastSeen =>
            rw [hst] at h
            simp only at h
            obtain ⟨hp, he⟩ := ih _ _ _ _ h
            refine ⟨hp, fun hacc => he ?_⟩
            intro e hme
            rcases List.mem_append.mp hme with hm | hm
            · exact hacc e hm
            · have he' : e = ⟨[("id", d.deviceID), ("name", d.name)],
                  [("last_seen_since_sec", now - lastSeen)]⟩ := by
                simpa using hm
              subst he'
              constructor
              · intro kv hkv
                rcases (by simpa using hkv :
                    kv = ("id", d.deviceID) ∨ kv = ("name", d.name)) with rfl | rfl
                · exact Or.inl rfl
                · exact Or.inr rfl
              · intro kv hkv
                rcases (by simpa using hkv :
                    kv = ("last_seen_since_sec", now - lastSeen)) with rfl
                rfl

theorem deviceLoop_error_shape (myId : String) (stats : Dict Int) (now : Int) :
    ∀ (ds : List DeviceEntry) (proto : Dict String) (acc : List Entity)
      (e : CollectErr),
      deviceLoop myId stats now ds proto acc = .error e →
      ∃ deviceId, e = .keyError deviceId := by
  intro ds
  induction ds with
  | nil => intro proto acc e h; cases h
  | cons d rest ih =>
      intro proto acc e h
      by_cases hd : d.deviceID = myId
      · simp only [deviceLoop] at h
        rw [if_pos hd] at h
        exact ih _ _ _ h
      · simp only [deviceLoop] at h
        rw [if_neg hd] at h
        cases hst : dictGet stats d.deviceID with
        | none =>
            rw [hst] at h
            simp only [Except.error.injEq] at h
            exact ⟨d.deviceID, h.symm⟩
        | some lastSeen =>
            rw [hst] at h
            exact ih _ _ _ h

theorem deviceLoop_missing (myId : String) (stats : Dict Int) (now : Int) :
    ∀ (ds : List DeviceEntry) (proto : Dict String) (acc : List Entity),
      (∃ d ∈ ds, ¬(d.deviceID = myId) ∧ dictGet stats d.deviceID = none) →
      ∃ deviceId, deviceLoop myId stats now ds proto acc = .error (.keyError deviceId) := by
  intro ds
  induction ds with
  | nil =>
      rintro proto acc ⟨d, hd, -, -⟩
      cases hd
  | cons d0 rest ih =>
      rintro proto acc ⟨d, hd, hne, hnone⟩
      by_cases h0 : d0.deviceID = myId
      · have hdr : d ∈ rest := by
          rcases List.mem_cons.mp hd with rfl | hm
          · exact absurd h0 hne
          · exact hm
        obtain ⟨deviceId, hres⟩ := ih (dictSet proto "my_name" d0.name) acc ⟨d, hdr, hne, hnone⟩
        refine ⟨deviceId, ?_⟩
        simp only [deviceLoop]
        rw [if_pos h0]
        exact hres
      · cases hst : dictGet stats d0.deviceID with
        | none =>
            refine ⟨d0.deviceID, ?_⟩
            simp only [deviceLoop]
            rw [if_neg h0, hst]
        | some lastSeen =>
            have hdr : d ∈ rest := by
              rcases List.mem_cons.mp hd with rfl | hm
              · rw [hst] at hnone; cases hnone
              · exact hm
            obtain ⟨deviceId, hres⟩ := ih _ _ ⟨d, hdr, hne, hnone⟩
            refine ⟨deviceId, ?_⟩
            simp only [deviceLoop]
            rw [if_neg h0, hst]
            exact hres

theorem folderLoop_ok_spec (myId : String)
    (completion : String → String → Except ConnErr Int) :
    ∀ (fs : List FolderEntry) (acc acc' : List Entity),
      folderLoop myId completion fs acc = .ok acc' →
      (∀ e ∈ acc, isFolderEntity e) → ∀ e ∈ acc', isFolderEntity e := by
  intro fs
  induction fs with
  | nil =>
      intro acc acc' h
      cases h
      exact fun hacc => hacc
  | cons f rest ih =>
      intro acc acc' h
      simp only [folderLoop] at h
      cases hc : completion myId f.id with
      | error e =>
          rw [hc] at h
          simp at h
      | ok c =>
          rw [hc] at h
          simp only at h
          intro hacc e hme
          refine ih _ _ h ?_ e hme
          intro e' hme'
          rcases List.mem_append.mp hme' with hm | hm
          · exact hacc e' hm
          · have he' : e' = ⟨[("id", f.id), ("label", f.label), ("path", f.path)],
                [("completion", c)]⟩ := by
              simpa using hm
            subst he'
            constructor
            · intro kv hkv
              rcases (by simpa using hkv :
                  kv = ("id", f.id) ∨ kv = ("label", f.label) ∨ kv = ("path", f.path))
                with rfl | rfl | rfl
              · exact Or.inl rfl
              · exact Or.inr (Or.inl rfl)
              · exact Or.inr (Or.inr rfl)
            · intro kv hkv
              rcases (by simpa using hkv : kv = ("completion", c)) with rfl
              rfl

theorem folderLoop_error_shape (myId : String)
    (completion : String → String → Except ConnErr Int) :
    ∀ (fs : List FolderEntry) (acc : List Entity) (e : CollectErr),
      folderLoop myId completion fs acc = .error e → ∃ ce, e = .conn ce := by
  intro fs
  induction fs with
  | nil => intro acc e h; cases h
  | cons f rest ih =>
      intro acc e h
      simp only [folderLoop] at h
      cases hc : completion myId f.id with
      | error ce =>
          rw [hc] at h
          simp only [Except.error.injEq] at h
          exact ⟨ce, h.symm⟩
      | ok c =>
          rw [hc] at h
          exact ih _ _ h

theorem protoTagsOf_cfg_name (cfg : SyncthingConfiguration)
    (h : dictGet cfg.tags "cfg_name" = none) :
    dictGet (protoTagsOf cfg) "cfg_name" = some cfg.name := by
  unfold protoTagsOf
  by_cases he : cfg.tags.isEmpty
  · rw [if_pos he, dictGet_cons, if_pos rfl]
  · rw [if_neg he,
      dictGet_dictUpdate_not_mem _ _ _ ((dictGet_eq_none_iff _ _).mp h),
      dictGet_cons, if_pos rfl]

/-- Every successful collection of one source decomposes into a proto
tag dict shared by all points (agreeing with `proto_tags` of
lines 108-110 outside the keys `my_id`/`my_name`), the per-entity
remote-device and folder entries whose keys are the fixed literals of
lines 134-151, and the point batch built by overlaying each entity over
its own copy of the proto dicts. -/
theorem collectSource_ok_decomp (cfg : SyncthingConfiguration)
    (meas : MeasurementConfiguration) (env : SourceEnv) (pts : List Point)
    (hok : collectSource cfg meas env = .ok pts) :
    ∃ (protoT : Dict String) (dEnts fEnts : List Entity),
      (∀ k, k ≠ "my_name" → k ≠ "my_id" →
        dictGet protoT k = dictGet (protoTagsOf cfg) k) ∧
      (∀ e ∈ dEnts, isDeviceEntity e) ∧
      (∀ e ∈ fEnts, isFolderEntity e) ∧
      pts = dEnts.map (fun e =>
              Point.mk meas.devices (dictUpdate protoT e.tags)
                (dictUpdate [("q_elapsed", env.qElapsed)] e.fields))
          ++ fEnts.map (fun e =>
              Point.mk meas.folders (dictUpdate protoT e.tags)
                (dictUpdate [("q_elapsed", env.qElapsed)] e.fields)) := by
  unfold collectSource at hok
  cases hsc : env.systemConfig with
  | error e => simp only [hsc] at hok; cases hok
  | ok scfg =>
      simp only [hsc] at hok
      cases hdef : scfg.defaultFolderDevices with
      | nil => simp only [hdef] at hok; cases hok
      | cons myDevice drest =>
          simp only [hdef] at hok
          cases hds : env.deviceStats with
          | error e => simp only [hds] at hok; cases hok
          | ok stats =>
              simp only [hds] at hok
              cases hdl : deviceLoop myDevice.deviceID stats env.now scfg.devices
                  (dictSet (protoTagsOf cfg) "my_id" myDevice.deviceID) [] with
              | error e => simp only [hdl] at hok; cases hok
              | ok pr =>
                  obtain ⟨protoT, dEnts⟩ := pr
                  simp only [hdl] at hok
                  cases hfl : folderLoop myDevice.deviceID env.completion scfg.folders [] with
                  | error e => simp only [hfl] at hok; cases hok
                  | ok fEnts =>
                      simp only [hfl, Except.ok.injEq] at hok
                      refine ⟨protoT, dEnts, fEnts, ?_, ?_, ?_, ?_⟩
                      · intro k hk1 hk2
                        obtain ⟨hp, -⟩ :=
                          deviceLoop_ok_spec myDevice.deviceID stats env.now
                            scfg.devices _ [] protoT dEnts hdl
                        rw [hp k hk1, dictGet_dictSet, if_neg hk2]
                      · obtain ⟨-, he⟩ :=
                          deviceLoop_ok_spec myDevice.deviceID stats env.now
                            scfg.devices _ [] protoT dEnts hdl
                        exact he (by intro e hme; cases hme)
                      · exact folderLoop_ok_spec myDevice.deviceID env.completion
                          scfg.folders [] fEnts hfl (by intro e hme; cases hme)
                      · rw [← hok, emitPoints_eq_map, emitPoints_eq_map]
                        simp

theorem sinkLoop_no_halt (sinks : List Bool) :
    sinkLoop false sinks =
      sinks.map (fun ok => if ok then SinkOutcome.written else SinkOutcome.reported) := by
  induction sinks with
  | nil => rfl
  | cons ok rest ih => cases ok <;> simp [sinkLoop, ih]

theorem sinkLoop_halt (pre post : List Bool) (hpre : ∀ b ∈ pre, b = true) :
    sinkLoop true (pre ++ false :: post) =
      pre.map (fun _ => SinkOutcome.written) ++ [SinkOutcome.raised] := by
  induction pre with
  | nil => simp [sinkLoop]
  | cons b rest ih =>
      have hb : b = true := hpre b (List.mem_cons_self b rest)
      subst hb
      have ih' := ih (fun b' hm => hpre b' (List.mem_cons_of_mem _ hm))
      show SinkOutcome.written :: sinkLoop true (rest ++ false :: post) =
        (true :: rest).map (fun _ => SinkOutcome.written) ++ [SinkOutcome.raised]
      rw [ih']
      rfl

/-- The point list of a successful collection (empty on failure). -/
def okPoints (r : Except CollectErr (List Point)) : List Point :=
  match r with
  | .ok pts => pts
  | .error _ => []

/-- Measurement names used by the concrete examples. -/
def measEx : MeasurementConfiguration := ⟨"devices", "folders"⟩

/-- A source named `A` whose static tag mapping carries a conflicting
`cfg_name` entry. -/
def cfgStaticClash : SyncthingConfiguration := ⟨"A", [("cfg_name", "device1")]⟩

/-- A source with a static tag mapping that does not touch `cfg_name`. -/
def cfgClean : SyncthingConfiguration := ⟨"home", [("site", "lab")]⟩

/-- Topology with the own device and one remote device, no folder. -/
def scfgOneRemote : SyncCfg :=
  ⟨[⟨"DEV0", "self"⟩], [⟨"DEV0", "self"⟩, ⟨"DEV1", "remote"⟩], []⟩

/-- Healthy environment over `scfgOneRemote`. -/
def envOneRemote : SourceEnv :=
  { systemConfig := .ok scfgOneRemote
    deviceStats := .ok [("DEV1", 90)]
    completion := fun _ _ => .ok 0
    now := 100
    qElapsed := 2 }

/-- First point collected from `cfgClean` over `envOneRemote`. -/
def pClean : Point :=
  match okPoints (collectSource cfgClean measEx envOneRemote) with
  | p :: _ => p
  | [] => ⟨"", [], []⟩

/-- Claim C1, counterexample: with source name `A` and static tags
`{cfg_name: device1}`, the single emitted point carries
`cfg_name = device1`, not the configured name `A` —
`proto_tags.update(sync.tags)` on line 110 lets the static tag mapping
overwrite the identity key. -/
theorem c1_counterexample :
    (okPoints (collectSource cfgStaticClash measEx envOneRemote)).map
        (fun p => dictGet p.tags "cfg_name") = [some "device1"] ∧
    cfgStaticClash.name = "A" ∧ "device1" ≠ "A" := by
  exact ⟨rfl, rfl, by decide⟩

/-- Claim C1 (amended): for a source whose static tag mapping does not
itself contain the key `cfg_name`, every emitted point's tags map
`cfg_name` to the source's configured name; entity-level tags can never
override it because device points merge only the keys `id`/`name` and
folder points only `id`/`label`/`path`.  (If the static tag mapping does
contain `cfg_name`, it overrides the configured name — see the
counterexample.) -/
theorem c1_theorem (cfg : SyncthingConfiguration) (meas : MeasurementConfiguration)
    (env : SourceEnv) (pts : List Point)
    (hstatic : dictGet cfg.tags "cfg_name" = none)
    (hok : collectSource cfg meas env = .ok pts) :
    ∀ p ∈ pts, dictGet p.tags "cfg_name" = some cfg.name := by
  obtain ⟨protoT, dEnts, fEnts, hproto, hdev, hfol, hpts⟩ :=
    collectSource_ok_decomp cfg meas env pts hok
  have hPT : dictGet protoT "cfg_name" = some cfg.name := by
    rw [hproto "cfg_name" (by decide) (by decide)]
    exact protoTagsOf_cfg_name cfg hstatic
  rw [hpts]
  intro p hp
  rcases List.mem_append.mp hp with hm | hm
  · obtain ⟨e, he, rfl⟩ := List.mem_map.mp hm
    have hkeys := (hdev e he).1
    have hne : ∀ kv ∈ e.tags, kv.1 ≠ "cfg_name" := by
      intro kv hkv
      rcases hkeys kv hkv with h1 | h1 <;> (rw [h1]; decide)
    show dictGet (dictUpdate protoT e.tags) "cfg_name" = some cfg.name
    rw [dictGet_dictUpdate_not_mem _ _ _ hne]
    exact hPT
  · obtain ⟨e, he, rfl⟩ := List.mem_map.mp hm
    have hkeys := (hfol e he).1
    have hne : ∀ kv ∈ e.tags, kv.1 ≠ "cfg_name" := by
      intro kv hkv
      rcases hkeys kv hkv with h1 | h1 | h1 <;> (rw [h1]; decide)
    show dictGet (dictUpdate protoT e.tags) "cfg_name" = some cfg.name
    rw [dictGet_dictUpdate_not_mem _ _ _ hne]
    exact hPT

/-- Claim C1, witness: `cfgClean` has no static `cfg_name` tag and its
first collected point indeed carries `cfg_name = home`. -/
theorem c1_witness :
    dictGet cfgClean.tags "cfg_name" = none ∧
    dictGet pClean.tags "cfg_name" = some cfgClean.name :=
  ⟨by decide,
   c1_theorem cfgClean measEx envOneRemote
     (okPoints (collectSource cfgClean measEx envOneRemote)) (by decide) rfl
     pClean (by decide)⟩

/-- A source with no static tags, named `home`. -/
def cfgHome : SyncthingConfiguration := ⟨"home", []⟩

/-- Topology with two remote devices and one folder. -/
def scfgMissing : SyncCfg :=
  ⟨[⟨"ME", "self"⟩],
   [⟨"ME", "self"⟩, ⟨"R1", "rone"⟩, ⟨"R2", "rtwo"⟩],
   [⟨"f1", "Folder One", "/data/f1"⟩]⟩

/-- Environment over `scfgMissing` whose device-stats mapping lacks the
remote device `R2`; the folder completion query succeeds. -/
def envMissingStats : SourceEnv :=
  { systemConfig := .ok scfgMissing
    deviceStats := .ok [("R1", 50)]
    completion := fun _ _ => .ok 87
    now := 100
    qElapsed := 1 }

/-- Claim C2, counterexample: with two remote devices of which `R2` is
missing from device-stats and one healthy folder, the collection raises
`KeyError` (line 131) and emits zero points — not 1 device point and
1 folder point with no fatal error. -/
theorem c2_counterexample :
    collectSource cfgHome measEx envMissingStats =
      .error (.keyError "R2") ∧
    okPoints (collectSource cfgHome measEx envMissingStats) = [] :=
  ⟨rfl, rfl⟩

/-- Claim C2 (amended): when some remote device of an otherwise-healthy
source is absent from the device-stats mapping, the whole source's
collection aborts with an uncaught `KeyError` — no point at all is
emitted for the source (the entity is not skipped, and the error is
fatal because nothing catches it). -/
theorem c2_theorem (cfg : SyncthingConfiguration) (meas : MeasurementConfiguration)
    (env : SourceEnv) (scfg : SyncCfg) (myDevice : DeviceEntry)
    (drest : List DeviceEntry) (stats : Dict Int)
    (hc : env.systemConfig = .ok scfg)
    (hdef : scfg.defaultFolderDevices = myDevice :: drest)
    (hstats : env.deviceStats = .ok stats)
    (hmiss : ∃ d ∈ scfg.devices, ¬(d.deviceID = myDevice.deviceID) ∧
      dictGet stats d.deviceID = none) :
    ∃ deviceId, collectSource cfg meas env = .error (.keyError deviceId) := by
  obtain ⟨deviceId, hdl⟩ :=
    deviceLoop_missing myDevice.deviceID stats env.now scfg.devices
      (dictSet (protoTagsOf cfg) "my_id" myDevice.deviceID) [] hmiss
  refine ⟨deviceId, ?_⟩
  unfold collectSource
  simp only [hc, hdef, hstats, hdl]

/-- Claim C2, witness: the amended statement applied to the concrete
missing-stats scenario. -/
theorem c2_witness :
    ∃ deviceId, collectSource cfgHome measEx envMissingStats =
      .error (.keyError deviceId) :=
  c2_theorem cfgHome measEx envMissingStats scfgMissing ⟨"ME", "self"⟩ []
    [("R1", 50)] rfl rfl rfl (by decide)

/-- A source named `srcA`. -/
def cfgSrcA : SyncthingConfiguration := ⟨"srcA", []⟩

/-- A source named `srcB`. -/
def cfgSrcB : SyncthingConfiguration := ⟨"srcB", []⟩

/-- Environment whose topology fetch raises a connection error. -/
def envConnFail : SourceEnv :=
  { systemConfig := .error .connection
    deviceStats := .ok []
    completion := fun _ _ => .ok 0
    now := 0
    qElapsed := 0 }

/-- Topology with one remote device and one folder. -/
def scfgHealthy : SyncCfg :=
  ⟨[⟨"ME", "self"⟩], [⟨"ME", "self"⟩, ⟨"R1", "rone"⟩], [⟨"f1", "F1", "/f1"⟩]⟩

/-- Healthy environment over `scfgHealthy`. -/
def envHealthy : SourceEnv :=
  { systemConfig := .ok scfgHealthy
    deviceStats := .ok [("R1", 40)]
    completion := fun _ _ => .ok 100
    now := 100
    qElapsed := 3 }

/-- Claim C3, counterexample: a connection failure on the first source's
topology fetch makes the whole collection phase fail — the healthy
second source (which alone would produce a non-empty batch) is never
collected, so one source's failure does prevent collection from the
others. -/
theorem c3_counterexample :
    collectAll measEx [(cfgSrcA, envConnFail), (cfgSrcB, envHealthy)] [] =
      .error (.conn .connection) ∧
    okPoints (collectSource cfgSrcB measEx envHealthy) ≠ [] :=
  ⟨rfl, by decide⟩

/-- Claim C3 (amended): a failure while collecting one source propagates
out of the source loop uncaught: the whole collection phase returns that
error, no batch is produced, and the remaining sources of the same pass
are not collected. -/
theorem c3_theorem (cfg : SyncthingConfiguration) (env : SourceEnv)
    (meas : MeasurementConfiguration)
    (rest : List (SyncthingConfiguration × SourceEnv))
    (pts : List Point) (e : CollectErr)
    (hfail : collectSource cfg meas env = .error e) :
    collectAll meas ((cfg, env) :: rest) pts = .error e := by
  simp only [collectAll, hfail]

/-- Claim C3, witness: the amended statement applied to the concrete
two-source scenario. -/
theorem c3_witness :
    collectAll measEx [(cfgSrcA, envConnFail), (cfgSrcB, envHealthy)] [] =
      .error (.conn .connection) :=
  c3_theorem cfgSrcA envConnFail measEx [(cfgSrcB, envHealthy)] []
    (.conn .connection) rfl

/-- Claim C4: selecting a configuration directory is impossible —
lines 211-212 replace a missing `--config` with the default
`syncflux.yml` before the exclusivity check of lines 213-214 runs, so
giving only `--config-dir` still trips `parser.error` and the process
exits; the directory scan of lines 225-230 (which would indeed pick the
`.yml` files in sorted filename order, second conjunct) is unreachable. -/
theorem c4_theorem :
    configModeRejected none (some "conf.d") = true ∧
    configFilesOfDir "conf.d" ["b.txt", "c.yml", "a.yml", "D.YML"] =
      ["conf.d/D.YML", "conf.d/a.yml", "conf.d/c.yml"] := by
  exact ⟨rfl, by decide⟩

/-- A sample point for the dispatch examples. -/
def pSample : Point := ⟨"devices", [("cfg_name", "home")], [("q_elapsed", 1)]⟩

/-- Claim C5: with a non-empty batch, every sink is attempted
independently (failures are caught and reported, successes written);
with halt-on-send-error set, the first failing sink re-raises and the
remaining sinks are not attempted. -/
theorem c5_theorem (points : List Point) (hp : points ≠ [])
    (sinks pre post : List Bool) (hpre : ∀ b ∈ pre, b = true) :
    sendPoints points sinks false =
      sinks.map (fun ok => if ok then SinkOutcome.written else SinkOutcome.reported) ∧
    sendPoints points (pre ++ false :: post) true =
      pre.map (fun _ => SinkOutcome.written) ++ [SinkOutcome.raised] := by
  have hne : points.isEmpty = false := by
    cases points with
    | nil => exact absurd rfl hp
    | cons a l => rfl
  constructor
  · have h1 : sendPoints points sinks false = sinkLoop false sinks := by
      unfold sendPoints
      rw [hne]
      rfl
    rw [h1]
    exact sinkLoop_no_halt sinks
  · have h2 : sendPoints points (pre ++ false :: post) true =
        sinkLoop true (pre ++ false :: post) := by
      unfold sendPoints
      rw [hne]
      rfl
    rw [h2]
    exact sinkLoop_halt pre post hpre

/-- Claim C5, witness: batch of one point, sink A fails and sink B
succeeds without halt (both attempted, A reported); with halt, the
failure after one successful sink aborts the remaining sink. -/
theorem c5_witness :
    sendPoints [pSample] [false, true] false =
      [false, true].map (fun ok => if ok then SinkOutcome.written else SinkOutcome.reported) ∧
    sendPoints [pSample] ([true] ++ false :: [true]) true =
      [true].map (fun _ => SinkOutcome.written) ++ [SinkOutcome.raised] :=
  c5_theorem [pSample] (by decide) [false, true] [true] [true] (by decide)

/-- Claim C6: after a non-final pass of 2 seconds with a 5-second wait,
the scheduler sleeps the full 5 seconds (line 254 sleeps `args.wait`),
not the `max(0, 5 − 2) = 3` seconds the claim states — even though
line 253 prints the 3-second `remaining` value.  The two parts of the
claim that do hold: a pass longer than the interval (7 s > 5 s) sleeps
0, and the final pass (`index = count`) skips the wait. -/
theorem c6_theorem :
    passSleep 2 1 5 2 = 5 ∧ max (0 : Rat) (5 - 2) = 3 ∧ (5 : Rat) ≠ 3 ∧
    passSleep 2 1 5 7 = 0 ∧ passSleep 2 2 5 2 = 0 := by
  refine ⟨?_, ?_, ?_, ?_, ?_⟩ <;> norm_num [passSleep]

/-- Claim C7: every point emitted for one source in one cycle carries
the same `q_elapsed` field value, namely the elapsed query time of that
source's cycle — the per-entity field merges (`last_seen_since_sec`,
`completion`) never touch the `q_elapsed` key of the copied proto
fields. -/
theorem c7_theorem (cfg : SyncthingConfiguration) (meas : MeasurementConfiguration)
    (env : SourceEnv) (pts : List Point) (p q : Point)
    (hok : collectSource cfg meas env = .ok pts) (hp : p ∈ pts) (hq : q ∈ pts) :
    dictGet p.fields "q_elapsed" = some env.qElapsed ∧
    dictGet q.fields "q_elapsed" = some env.qElapsed := by
  obtain ⟨protoT, dEnts, fEnts, hproto, hdev, hfol, hpts⟩ :=
    collectSource_ok_decomp cfg meas env pts hok
  have hall : ∀ r ∈ pts, dictGet r.fields "q_elapsed" = some env.qElapsed := by
    rw [hpts]
    intro r hr
    rcases List.mem_append.mp hr with hm | hm
    · obtain ⟨e, he, rfl⟩ := List.mem_map.mp hm
      have hkeys := (hdev e he).2
      have hne : ∀ kv ∈ e.fields, kv.1 ≠ "q_elapsed" := by
        intro kv hkv
        rw [hkeys kv hkv]
        decide
      show dictGet (dictUpdate [("q_elapsed", env.qElapsed)] e.fields) "q_elapsed" =
        some env.qElapsed
      rw [dictGet_dictUpdate_not_mem _ _ _ hne, dictGet_cons, if_pos rfl]
    · obtain ⟨e, he, rfl⟩ := List.mem_map.mp hm
      have hkeys := (hfol e he).2
      have hne : ∀ kv ∈ e.fields, kv.1 ≠ "q_elapsed" := by
        intro kv hkv
        rw [hkeys kv hkv]
        decide
      show dictGet (dictUpdate [("q_elapsed", env.qElapsed)] e.fields) "q_elapsed" =
        some env.qElapsed
      rw [dictGet_dictUpdate_not_mem _ _ _ hne, dictGet_cons, if_pos rfl]
  exact ⟨hall p hp, hall q hq⟩

/-- First (device) point of the healthy collection. -/
def pHealthyDev : Point :=
  match okPoints (collectSource cfgSrcB measEx envHealthy) with
  | p :: _ => p
  | [] => ⟨"", [], []⟩

/-- Second (folder) point of the healthy collection. -/
def pHealthyFol : Point :=
  match okPoints (collectSource cfgSrcB measEx envHealthy) with
  | _ :: p :: _ => p
  | _ => ⟨"", [], []⟩

/-- Claim C7, witness: both points of the healthy one-remote-device,
one-folder collection carry `q_elapsed = 3`. -/
theorem c7_witness :
    dictGet (pHealthyDev.fields) "q_elapsed" = some envHealthy.qElapsed ∧
    dictGet (pHealthyFol.fields) "q_elapsed" = some envHealthy.qElapsed :=
  c7_theorem cfgSrcB measEx envHealthy
    (okPoints (collectSource cfgSrcB measEx envHealthy)) pHealthyDev pHealthyFol
    rfl (by decide) (by decide)

/-- Claim C8: an empty combined batch short-circuits the dispatch — no
sink is attempted at all, whatever the sink list and halt flag. -/
theorem c8_theorem (sinks : List Bool) (halt : Bool) :
    sendPoints [] sinks halt = [] := rfl

/-- Topology whose `defaults.folder.devices` list is empty. -/
def scfgNoDefaults : SyncCfg := ⟨[], [], []⟩

/-- Environment over `scfgNoDefaults`. -/
def envNoDefaults : SourceEnv :=
  { systemConfig := .ok scfgNoDefaults
    deviceStats := .ok []
    completion := fun _ _ => .ok 0
    now := 0
    qElapsed := 0 }

/-- Claim C9: the own device id is `defaults.folder.devices[0]`
(line 119); with a non-empty list the collection can never fail with the
index error, and with an empty list it fails with exactly the index
error before emitting any point for the source. -/
theorem c9_theorem (cfg : SyncthingConfiguration) (meas : MeasurementConfiguration)
    (env : SourceEnv) (scfg : SyncCfg)
    (hc : env.systemConfig = .ok scfg) :
    (scfg.defaultFolderDevices = [] →
      collectSource cfg meas env = .error CollectErr.indexError) ∧
    (scfg.defaultFolderDevices ≠ [] →
      ∀ e, collectSource cfg meas env = .error e → e ≠ CollectErr.indexError) := by
  constructor
  · intro hempty
    unfold collectSource
    simp only [hc, hempty]
  · intro hne e hcol
    unfold collectSource at hcol
    simp only [hc] at hcol
    cases hdef : scfg.defaultFolderDevices with
    | nil => exact absurd hdef hne
    | cons myDevice drest =>
        simp only [hdef] at hcol
        cases hds : env.deviceStats with
        | error ce =>
            simp only [hds] at hcol
            injection hcol with h
            subst h
            intro hcontra
            cases hcontra
        | ok stats =>
            simp only [hds] at hcol
            cases hdl : deviceLoop myDevice.deviceID stats env.now scfg.devices
                (dictSet (protoTagsOf cfg) "my_id" myDevice.deviceID) [] with
            | error de =>
                simp only [hdl] at hcol
                injection hcol with h
                subst h
                obtain ⟨deviceId, rfl⟩ :=
                  deviceLoop_error_shape _ _ _ _ _ _ _ hdl
                intro hcontra
                cases hcontra
            | ok pr =>
                obtain ⟨protoT, dEnts⟩ := pr
                simp only [hdl] at hcol
                cases hfl : folderLoop myDevice.deviceID env.completion
                    scfg.folders [] with
                | error fe =>
                    simp only [hfl] at hcol
                    injection hcol with h
                    subst h
                    obtain ⟨ce, rfl⟩ :=
                      folderLoop_error_shape _ _ _ _ _ hfl
                    intro hcontra
                    cases hcontra
                | ok fEnts =>
                    simp only [hfl] at hcol
                    cases hcol

/-- Claim C9, witness: the empty-defaults topology makes the collection
fail with exactly the index error. -/
theorem c9_witness :
    collectSource cfgHome measEx envNoDefaults = .error CollectErr.indexError :=
  (c9_theorem cfgHome measEx envNoDefaults scfgNoDefaults rfl).1 rfl

/-- Claim C10: every successful batch decomposes into per-entity points
each built from a shared proto tag/field dict overlaid with only that
entity's own entries — constructing one entity's point leaves the proto
dicts and every other point's mappings untouched (the `copy.copy` of
lines 157 and 159 makes the mappings independent). -/
theorem c10_theorem (cfg : SyncthingConfiguration) (meas : MeasurementConfiguration)
    (env : SourceEnv) (pts : List Point)
    (hok : collectSource cfg meas env = .ok pts) :
    ∃ (protoT : Dict String) (protoF : Dict Int) (dEnts fEnts : List Entity),
      pts = dEnts.map (fun e =>
              Point.mk meas.devices (dictUpdate protoT e.tags)
                (dictUpdate protoF e.fields))
          ++ fEnts.map (fun e =>
              Point.mk meas.folders (dictUpdate protoT e.tags)
                (dictUpdate protoF e.fields)) := by
  obtain ⟨protoT, dEnts, fEnts, -, -, -, hpts⟩ :=
    collectSource_ok_decomp cfg meas env pts hok
  exact ⟨protoT, [("q_elapsed", env.qElapsed)], dEnts, fEnts, hpts⟩

/-- Claim C10, witness: the decomposition at the concrete healthy
collection. -/
theorem c10_witness :
    ∃ (protoT : Dict String) (protoF : Dict Int) (dEnts fEnts : List Entity),
      okPoints (collectSource cfgSrcB measEx envHealthy) =
        dEnts.map (fun e =>
            Point.mk measEx.devices (dictUpdate protoT e.tags)
              (dictUpdate protoF e.fields))
        ++ fEnts.map (fun e =>
            Point.mk measEx.folders (dictUpdate protoT e.tags)
              (dictUpdate protoF e.fields)) :=
  c10_theorem cfgSrcB measEx envHealthy
    (okPoints (collectSource cfgSrcB measEx envHealthy)) rfl

end Syncflux
